import Mathlib

/-!
Verification of `src/core/lib/transport/service_config.c` (service-config
parsing and method-config table compilation) against its specification.

The parsed JSON tree (`grpc_json`) is modelled by the inductive `Json`:
every node carries an optional key (the `key` field of `grpc_json`, `NULL`
for array elements and for the root) and object/array nodes carry their
ordered children.  String and number nodes carry their text; the external
parser always produces a non-NULL `value` for them, so the defensive
`child->value == NULL` checks in the C code (which can then never fire)
are not represented.

The caller-supplied value factory (`create_value`) is an arbitrary function
`Json → Option V`; `none` models a factory rejection (returning `NULL`).
The caller-supplied vtable's `copy_value` / `destroy_value` calls and the
`grpc_mdstr` key creations / unrefs are not interpreted; instead every call
site is counted in a `Trace`, which is what the resource-release claims
are about.
-/

namespace ServiceConfig

/-- A parsed JSON tree node (`grpc_json`): type tag, optional key,
children for containers, text for scalars. -/
inductive Json : Type where
  | obj (key : Option String) (children : List Json)
  | arr (key : Option String) (children : List Json)
  | str (key : Option String) (value : String)
  | num (key : Option String) (value : String)
  | boolean (key : Option String) (value : Bool)
  | null (key : Option String)

/-- The `key` field of a `grpc_json` node (`NULL` modelled as `none`). -/
def Json.key : Json → Option String
  | .obj k _ => k
  | .arr k _ => k
  | .str k _ => k
  | .num k _ => k
  | .boolean k _ => k
  | .null k => k

/-- The `child` list of a `grpc_json` node (empty for scalar nodes). -/
def Json.children : Json → List Json
  | .obj _ cs => cs
  | .arr _ cs => cs
  | _ => []

/-- The `type == GRPC_JSON_STRING` test together with the node's `value`:
`some v` for a string node, `none` otherwise. -/
def Json.strVal : Json → Option String
  | .str _ v => some v
  | _ => none

/-- The `type == GRPC_JSON_ARRAY` test together with the node's children:
`some elems` for an array node, `none` otherwise. -/
def Json.arrElems : Json → Option (List Json)
  | .arr _ es => some es
  | _ => none

/-- The field loop of `grpc_service_config_get_lb_policy_name`: walks the
top-level fields, threading the captured `lb_policy_name` (`NULL` = `none`).
A keyless field, a duplicate `loadBalancingPolicy`, or a
non-string `loadBalancingPolicy` returns `NULL`. -/
def lbScan : List Json → Option String → Option String
  | [], acc => acc
  | field :: rest, acc =>
    match field.key with
    | none => none
    | some k =>
      if k = "loadBalancingPolicy" then
        if acc.isSome then none
        else
          match field.strVal with
          | some v => lbScan rest (some v)
          | none => none
      else lbScan rest acc

/-- Embedding of `grpc_service_config_get_lb_policy_name`: requires the root to be a
keyless object, then scans its fields.  The C function returns
`const char*`, with `NULL` both for "absent" and for every rejection;
`none` models that single `NULL` result. -/
def grpc_service_config_get_lb_policy_name (doc : Json) : Option String :=
  match doc with
  | .obj none fields => lbScan fields none
  | _ => none

/-- The field loop of `parse_json_method_name`: threads the captured
`service_name` and `method_name`.  A keyless field, a non-string field,
or a duplicate `service`/`method` key returns `NULL` (`none`). -/
def parseNameFields :
    List Json → Option String → Option String → Option (Option String × Option String)
  | [], s, m => some (s, m)
  | child :: rest, s, m =>
    match child.key with
    | none => none
    | some k =>
      match child.strVal with
      | none => none
      | some v =>
        if k = "service" then
          if s.isSome then none else parseNameFields rest (some v) m
        else if k = "method" then
          if m.isSome then none else parseNameFields rest s (some v)
        else parseNameFields rest s m

/-- Embedding of `parse_json_method_name`: path synthesis for one name object.
Returns `NULL` (`none`) if the node is not an object, the field scan
rejects, or `service` was never seen; otherwise the path
`"/" ++ service ++ "/" ++ method` with `"*"` for an absent method
(`gpr_asprintf("/%s/%s", service_name, method_name == NULL ? "*" : ...)`). -/
def parse_json_method_name (json : Json) : Option String :=
  match json with
  | .obj _ children =>
    match parseNameFields children none none with
    | none => none
    | some (none, _) => none
    | some (some svc, m) => some ("/" ++ svc ++ "/" ++ m.getD "*")
  | _ => none

/-- The loop body of `count_names_in_method_config_json`: one count per
field whose key is (non-NULL and) equal to `"name"`. -/
def countNames : List Json → Nat
  | [] => 0
  | field :: rest => (if field.key = some "name" then 1 else 0) + countNames rest

/-- Embedding of `count_names_in_method_config_json`. -/
def count_names_in_method_config_json (json : Json) : Nat :=
  countNames json.children

/-- Counters for the caller-visible resource events of one compilation:
`copies` counts `vtable->copy_value` calls made while staging table
entries, `copyDestroys` counts the `vtable->destroy_value` calls made on
those staged copies (the cleanup loop after table creation), `keysMade` /
`keysReleased` likewise count `grpc_mdstr_from_string` / `GRPC_MDSTR_UNREF`
on staged keys, and `originalDestroys` counts the `destroy_value` calls on
the factory-constructed original at the end of `parse_json_method_config`. -/
structure Trace where
  copies : Nat
  copyDestroys : Nat
  keysMade : Nat
  keysReleased : Nat
  originalDestroys : Nat
deriving DecidableEq

/-- The all-zero trace at the start of a compilation. -/
def trace0 : Trace := ⟨0, 0, 0, 0, 0⟩

/-- The staging buffer of `grpc_service_config_create_method_config_table`:
`staged` is `entries[0 .. idx-1]`, `cap` the allocated `num_entries`, and
`tr` the resource-event counters so far. -/
structure StageState (V : Type) where
  staged : List (String × V)
  cap : Nat
  tr : Trace

/-- The path-collecting loop of `parse_json_method_config` (lines walking
`json->child`): keyless fields are skipped (`continue`); a `"name"` field
that is not an array aborts (`goto done`, modelled as `none`); a `"name"`
array contributes `parse_json_method_name` of each element — including the
`NULL` results, which `gpr_strvec_add` stores unchecked. -/
def collectPaths : List Json → List (Option String) → Option (List (Option String))
  | [], acc => some acc
  | child :: rest, acc =>
    match child.key with
    | none => collectPaths rest acc
    | some k =>
      if k = "name" then
        match child.arrElems with
        | some elems => collectPaths rest (acc ++ elems.map parse_json_method_name)
        | none => none
      else collectPaths rest acc

/-- The entry-adding loop of `parse_json_method_config`: for each collected
path, `entries[*idx].key = grpc_mdstr_from_string(path)` and
`entries[*idx].value = vtable->copy_value(method_config)`.  A `NULL` path
reaches `strlen` inside `grpc_mdstr_from_string` — undefined behavior,
modelled as `none`; likewise a write at `*idx ≥ num_entries` is out of the
bounds of the `gpr_malloc`ed buffer, also `none`. -/
def stagePaths {V : Type} (v : V) :
    List (Option String) → StageState V → Option (StageState V)
  | [], st => some st
  | none :: _, _ => none
  | some p :: rest, st =>
    if st.staged.length = st.cap then none
    else
      stagePaths v rest
        { staged := st.staged ++ [(p, v)], cap := st.cap,
          tr := { st.tr with copies := st.tr.copies + 1,
                             keysMade := st.tr.keysMade + 1 } }

/-- The `destroy_value(method_config)` call at `done:` in
`parse_json_method_config` (destroys the factory's original). -/
def destroyOriginal {V : Type} (st : StageState V) : StageState V :=
  { st with tr := { st.tr with originalDestroys := st.tr.originalDestroys + 1 } }

/-- Embedding of `parse_json_method_config`: constructs the factory value (rejection
before any other work), collects the entry's paths, rejects an entry with
zero paths, stages each path, and always destroys the original value at
`done:` once it was constructed.  `none` is the undefined-behavior branch
of `stagePaths`; `some (false, st)` is `return false`;
`some (true, st)` is success with the staged entries appended. -/
def parse_json_method_config {V : Type} (f : Json → Option V) (json : Json)
    (st : StageState V) : Option (Bool × StageState V) :=
  match f json with
  | none => some (false, st)
  | some v =>
    match collectPaths json.children [] with
    | none => some (false, destroyOriginal st)
    | some paths =>
      if paths = [] then some (false, destroyOriginal st)
      else
        match stagePaths v paths st with
        | none => none
        | some st' => some (true, destroyOriginal st')

/-- The per-method loop of `grpc_service_config_create_method_config_table`
over the `"methodConfig"` array elements: stops at the first entry whose
`parse_json_method_config` returns false (`some (false, _)`) or crashes
(`none`). -/
def compileMethods {V : Type} (f : Json → Option V) :
    List Json → StageState V → Option (Bool × StageState V)
  | [], st => some (true, st)
  | m :: rest, st =>
    match parse_json_method_config f m st with
    | none => none
    | some (false, st') => some (false, st')
    | some (true, st') => compileMethods f rest st'

/-- Result of `grpc_service_config_create_method_config_table`.  The C
function returns a `grpc_mdstr_hash_table*` that is `NULL` both on every
rejection and when no `"methodConfig"` field was seen; `CompileResult.null`
models that single `NULL` return value.  `crash` models reaching undefined
behavior (a `NULL` path fed to `grpc_mdstr_from_string`, a staging write
past the allocated buffer) or a `GPR_ASSERT` failure, which aborts. -/
inductive CompileResult (V : Type) where
  | crash
  | null
  | table (entries : List (String × V))
deriving DecidableEq

/-- The top-level field loop of
`grpc_service_config_create_method_config_table`.  `acc` is `none` while
`entries == NULL` (no `"methodConfig"` processed yet) and `some staged`
afterwards.  A keyless field returns `NULL` at once — with no release of
already-staged entries; so does a failing `parse_json_method_config`.  On
fall-through with staged entries, the table is created and the cleanup
loop unrefs each staged key and destroys each staged value copy.
The external allocator is modelled as returning a usable (non-`NULL`)
buffer even for zero entries, so an empty `"methodConfig"` array still
marks `entries` as present. -/
def compileFields {V : Type} (f : Json → Option V) :
    List Json → Option (List (String × V)) → Trace → CompileResult V × Trace
  | [], acc, tr =>
    match acc with
    | none => (.null, tr)
    | some staged =>
      (.table staged,
       { tr with copyDestroys := tr.copyDestroys + staged.length,
                 keysReleased := tr.keysReleased + staged.length })
  | field :: rest, acc, tr =>
    match field.key with
    | none => (.null, tr)
    | some k =>
      if k = "methodConfig" then
        if acc.isSome then (.null, tr)
        else
          match field.arrElems with
          | some methods =>
            match compileMethods f methods
                ⟨[], (methods.map count_names_in_method_config_json).sum, tr⟩ with
            | none => (.crash, tr)
            | some (false, st') => (.null, st'.tr)
            | some (true, st') =>
              if st'.staged.length = (methods.map count_names_in_method_config_json).sum
              then compileFields f rest (some st'.staged) st'.tr
              else (.crash, st'.tr)
          | none => (.null, tr)
      else compileFields f rest acc tr

/-- Embedding of `grpc_service_config_create_method_config_table`: root must be a
keyless object, then the top-level fields are scanned.  Paired with the
resource-event trace of the run. -/
def grpc_service_config_create_method_config_table {V : Type}
    (f : Json → Option V) (doc : Json) : CompileResult V × Trace :=
  match doc with
  | .obj none fields => compileFields f fields none trace0
  | _ => (.null, trace0)

/-- Exact lookup in the `grpc_mdstr_hash_table`, modelled as an association
list over paths as character lists (first match wins; the real table has
unique keys). -/
def tableGet {V : Type} : List (List Char × V) → List Char → Option V
  | [], _ => none
  | (k, v) :: rest, p => if k = p then some v else tableGet rest p

/-- The wildcard-path derivation of `grpc_method_config_table_get`:
`strrchr(path_str, '/') + 1` and the `memcpy` of the first
`sep - path_str` characters yield the path's longest prefix ending in
`'/'`; `none` when the path has no `'/'` at all (`strrchr` returns `NULL`
and the pointer arithmetic on it is undefined). -/
def upToLastSlash : List Char → Option (List Char)
  | [] => none
  | c :: rest =>
    match upToLastSlash rest with
    | some p => some (c :: p)
    | none => if c = '/' then some [c] else none

/-- Embedding of `grpc_method_config_table_get`: exact lookup first; on a miss, build
`prefix-through-last-slash ++ "*"` and look that up.  The outer `Option`
separates defined executions (`some result`) from the undefined
`strrchr == NULL` branch (`none`). -/
def grpc_method_config_table_get {V : Type} (table : List (List Char × V))
    (path : List Char) : Option (Option V) :=
  match tableGet table path with
  | some v => some (some v)
  | none =>
    match upToLastSlash path with
    | none => none
    | some pre => some (tableGet table (pre ++ ['*']))

/-- A factory (`create_value`) that accepts every entry, producing a unit
value; used for concrete evaluations of the compiler. -/
def unitFactory : Json → Option Unit := fun _ => some ()

/-- A method-config entry with a single valid name object
(`{"name": [{"service": "s"}]}`). -/
def entryGood : Json :=
  .obj none [.arr (some "name") [.obj none [.str (some "service") "s"]]]

/-- A method-config entry whose `"name"` field is not an array
(`{"name": "oops"}`), so `parse_json_method_config` fails cleanly on it. -/
def entryBad : Json := .obj none [.str (some "name") "oops"]

/- Auxiliary facts about the `grpc_service_config_get_lb_policy_name`
field scan. -/

/-- If the scan returns `NULL` from some point on whatever has been
captured so far, prepending more fields cannot rescue it: every branch of
the loop either returns `NULL` immediately or recurses. -/
lemma lbScan_append_none (rest : List Json)
    (h : ∀ acc, lbScan rest acc = none) :
    ∀ (l : List Json) (acc : Option String), lbScan (l ++ rest) acc = none := by
  intro l
  induction l with
  | nil => exact h
  | cons fld tl ih =>
    intro acc
    simp only [List.cons_append, lbScan]
    cases hk : fld.key with
    | none => rfl
    | some k =>
      by_cases hlb : k = "loadBalancingPolicy"
      · cases acc with
        | some s => simp [hlb]
        | none =>
          cases hs : fld.strVal with
          | none => simp [hlb, hs]
          | some v => simp [hlb, hs, ih]
      · simp [hlb, ih]

/-- Once a `loadBalancingPolicy` value has been captured (`acc` is
`some _`), it stays captured, and a suffix that returns `NULL` on every
captured state makes the whole scan return `NULL`. -/
lemma lbScan_some_append_none (rest : List Json)
    (h : ∀ s : String, lbScan rest (some s) = none) :
    ∀ (l : List Json) (s : String), lbScan (l ++ rest) (some s) = none := by
  intro l
  induction l with
  | nil => exact h
  | cons fld tl ih =>
    intro s
    simp only [List.cons_append, lbScan]
    cases hk : fld.key with
    | none => rfl
    | some k =>
      by_cases hlb : k = "loadBalancingPolicy"
      · simp [hlb]
      · simp [hlb, ih]

/-- A scan that meets no keyless field and no `loadBalancingPolicy` field
returns its accumulator unchanged. -/
lemma lbScan_no_lb (fields : List Json)
    (h1 : ∀ g ∈ fields, g.key ≠ none)
    (h2 : ∀ g ∈ fields, g.key ≠ some "loadBalancingPolicy") :
    ∀ acc, lbScan fields acc = acc := by
  induction fields with
  | nil => intro acc; rfl
  | cons fld tl ih =>
    intro acc
    simp only [lbScan]
    cases hk : fld.key with
    | none => exact absurd hk (h1 fld (List.mem_cons_self fld tl))
    | some k =>
      have hne : k ≠ "loadBalancingPolicy" := by
        intro hEq
        exact h2 fld (List.mem_cons_self fld tl) (by rw [hk, hEq])
      simp only [hne, if_false]
      exact ih (fun g hg => h1 g (List.mem_cons_of_mem fld hg))
        (fun g hg => h2 g (List.mem_cons_of_mem fld hg)) acc

/-- Claim C7 (counterexample): in the code, a duplicated
`loadBalancingPolicy` and an entirely absent `loadBalancingPolicy` both
make `grpc_service_config_get_lb_policy_name` return the very same `NULL`
(`none`) — the "success with no value" outcome claimed to be
distinguishable from rejection does not exist. -/
theorem c7_null_counterexample :
    grpc_service_config_get_lb_policy_name
        (.obj none [.str (some "loadBalancingPolicy") "a",
                    .str (some "loadBalancingPolicy") "b"]) = none ∧
    grpc_service_config_get_lb_policy_name (.obj none []) = none ∧
    grpc_service_config_get_lb_policy_name
        (.obj none [.str (some "loadBalancingPolicy") "a",
                    .str (some "loadBalancingPolicy") "b"]) =
      grpc_service_config_get_lb_policy_name (.obj none []) :=
  ⟨rfl, rfl, rfl⟩

/-- Claim C7 (amended): for every keyless-object root, two sibling
top-level fields keyed `loadBalancingPolicy` make
`grpc_service_config_get_lb_policy_name` return `NULL`; a root whose
fields are all keyed and none keyed `loadBalancingPolicy` also returns
`NULL` — the same value, so the absent case is not distinguishable from
the rejection. -/
theorem c7_lb_duplicate_and_absent_null :
    (∀ (l₁ l₂ l₃ : List Json) (a b : Json),
      a.key = some "loadBalancingPolicy" → b.key = some "loadBalancingPolicy" →
      grpc_service_config_get_lb_policy_name
          (.obj none (l₁ ++ a :: (l₂ ++ b :: l₃))) = none) ∧
    (∀ fields : List Json, (∀ g ∈ fields, g.key ≠ none) →
      (∀ g ∈ fields, g.key ≠ some "loadBalancingPolicy") →
      grpc_service_config_get_lb_policy_name (.obj none fields) = none) := by
  constructor
  · intro l₁ l₂ l₃ a b ha hb
    show lbScan (l₁ ++ a :: (l₂ ++ b :: l₃)) none = none
    refine lbScan_append_none _ ?_ l₁ none
    intro acc
    have hb' : ∀ s : String, lbScan (b :: l₃) (some s) = none := by
      intro s
      simp [lbScan, hb]
    simp only [lbScan, ha, if_pos rfl]
    cases acc with
    | some s => rfl
    | none =>
      cases hs : a.strVal with
      | none => rfl
      | some v => exact lbScan_some_append_none _ hb' l₂ v
  · intro fields h1 h2
    show lbScan fields none = none
    exact lbScan_no_lb fields h1 h2 none

/-- Claim C7 (witness): the amended theorem applied to a concrete
duplicated document and a concrete lb-free document. -/
theorem c7_witness :
    grpc_service_config_get_lb_policy_name
        (.obj none [.str (some "loadBalancingPolicy") "x",
                    .str (some "loadBalancingPolicy") "y"]) = none ∧
    grpc_service_config_get_lb_policy_name
        (.obj none [.str (some "other") "v"]) = none := by
  constructor
  · exact c7_lb_duplicate_and_absent_null.1 [] [] []
      (.str (some "loadBalancingPolicy") "x")
      (.str (some "loadBalancingPolicy") "y") rfl rfl
  · refine c7_lb_duplicate_and_absent_null.2 [.str (some "other") "v"] ?_ ?_
    · intro g hg
      rw [List.mem_singleton] at hg
      subst hg
      simp [Json.key]
    · intro g hg
      rw [List.mem_singleton] at hg
      subst hg
      simp [Json.key]

/-- Claim C8: the lb-policy scan examines every top-level field; a keyless
field anywhere among the root's fields makes the whole call return `NULL`,
even when a well-formed `loadBalancingPolicy` field appears earlier. -/
theorem c8_keyless_sibling_rejects (l₁ l₂ : List Json) (g : Json)
    (hg : g.key = none) :
    grpc_service_config_get_lb_policy_name (.obj none (l₁ ++ g :: l₂)) = none := by
  show lbScan (l₁ ++ g :: l₂) none = none
  refine lbScan_append_none _ ?_ l₁ none
  intro acc
  simp [lbScan, hg]

/-- Claim C8 (witness): a keyless sibling after a valid
`loadBalancingPolicy` string field still yields `NULL`. -/
theorem c8_witness :
    grpc_service_config_get_lb_policy_name
        (.obj none [.str (some "loadBalancingPolicy") "round_robin",
                    .str none "junk"]) = none :=
  c8_keyless_sibling_rejects [.str (some "loadBalancingPolicy") "round_robin"]
    [] (.str none "junk") rfl

/-- Claim C1: a document whose `"methodConfig"` array has a valid first
entry and a failing second one (its `"name"` field is not an array).  The
compilation rejects (`NULL`), but the key and the value copy staged for
the first entry are never released: the run ends with one `copy_value`
call and zero `destroy_value` calls on copies, one key made and zero keys
unreffed — the early `return NULL` skips the cleanup loop, which runs
only on the success path. -/
theorem c1_leak_on_rejection :
    grpc_service_config_create_method_config_table unitFactory
        (.obj none [.arr (some "methodConfig") [entryGood, entryBad]]) =
      (.null, ⟨1, 0, 1, 0, 2⟩) := rfl

/-- Claim C2 (counterexample): a well-formed keyless-object document with
every field keyed and no `"methodConfig"` field compiles to the same
`NULL` result (`CompileResult.null`) as a document whose root is outright
invalid (an array root), so no empty table distinguishable from rejection
is ever produced. -/
theorem c2_counterexample :
    grpc_service_config_create_method_config_table unitFactory
        (.obj none [.str (some "loadBalancingPolicy") "pick_first"]) =
      (.null, trace0) ∧
    grpc_service_config_create_method_config_table unitFactory
        (.arr none []) = (.null, trace0) :=
  ⟨rfl, rfl⟩

/-- Claim C2 (amended): for every keyless-object root whose top-level
fields are all keyed and none keyed `"methodConfig"`, and every factory,
`grpc_service_config_create_method_config_table` returns `NULL` — the
same value every rejection path returns, not an empty table. -/
theorem c2_absent_method_config_null {V : Type} (f : Json → Option V)
    (fields : List Json)
    (h1 : ∀ g ∈ fields, g.key ≠ none)
    (h2 : ∀ g ∈ fields, g.key ≠ some "methodConfig") :
    grpc_service_config_create_method_config_table f (.obj none fields) =
      (.null, trace0) := by
  show compileFields f fields none trace0 = (.null, trace0)
  induction fields with
  | nil => rfl
  | cons fld tl ih =>
    simp only [compileFields]
    cases hk : fld.key with
    | none => exact absurd hk (h1 fld (List.mem_cons_self fld tl))
    | some k =>
      have hne : k ≠ "methodConfig" := by
        intro hEq
        exact h2 fld (List.mem_cons_self fld tl) (by rw [hk, hEq])
      simp only [hne, if_false]
      exact ih (fun g hg => h1 g (List.mem_cons_of_mem fld hg))
        (fun g hg => h2 g (List.mem_cons_of_mem fld hg))

/-- Claim C2 (witness): the amended theorem at a concrete document with
one keyed non-`methodConfig` field. -/
theorem c2_witness :
    grpc_service_config_create_method_config_table unitFactory
        (.obj none [.str (some "loadBalancingPolicy") "x"]) =
      (.null, trace0) := by
  refine c2_absent_method_config_null unitFactory
      [.str (some "loadBalancingPolicy") "x"] ?_ ?_
  · intro g hg
    rw [List.mem_singleton] at hg
    subst hg
    simp [Json.key]
  · intro g hg
    rw [List.mem_singleton] at hg
    subst hg
    simp [Json.key]

/-- Claim C3: a method-config entry whose single `"name"` array holds two
name objects.  The pre-pass counts `"name"` *fields* (1 here), while the
compilation pass stages one table entry per name *object* (2 here): the
second staging write lands past the end of the `num_entries`-sized buffer
and `GPR_ASSERT(idx == num_entries)` cannot hold — the run reaches the
embedded undefined-behavior branch instead of producing a table. -/
theorem c3_count_mismatch_crash :
    count_names_in_method_config_json
        (.obj none [.arr (some "name")
          [.obj none [.str (some "service") "a"],
           .obj none [.str (some "service") "b"]]]) = 1 ∧
    grpc_service_config_create_method_config_table unitFactory
        (.obj none [.arr (some "methodConfig")
          [.obj none [.arr (some "name")
            [.obj none [.str (some "service") "a"],
             .obj none [.str (some "service") "b"]]]]]) =
      (.crash, trace0) :=
  ⟨rfl, rfl⟩

/-- Claim C4: a document whose method-config entry has a name object with
no `"service"` key.  `parse_json_method_name` returns `NULL`, but
`parse_json_method_config` appends that `NULL` to the path list unchecked
and later hands it to `grpc_mdstr_from_string` (`strlen(NULL)`): the run
reaches the embedded undefined-behavior branch, not a clean rejection. -/
theorem c4_missing_service_crash :
    parse_json_method_name (.obj none []) = none ∧
    grpc_service_config_create_method_config_table unitFactory
        (.obj none [.arr (some "methodConfig")
          [.obj none [.arr (some "name") [.obj none []]]]]) =
      (.crash, trace0) :=
  ⟨rfl, rfl⟩

/-- Claim C5: for every name object whose field scan succeeds with a
captured service (and optionally a method), the synthesized call path is
`"/" ++ service ++ "/" ++ method` when a method string was captured and
`"/" ++ service ++ "/*"` when none was. -/
theorem c5_path_synthesis (key : Option String) (children : List Json)
    (svc : String) (m : Option String)
    (h : parseNameFields children none none = some (some svc, m)) :
    parse_json_method_name (.obj key children) =
      some ("/" ++ svc ++ "/" ++ m.getD "*") := by
  simp [parse_json_method_name, h]

/-- Claim C5 (witness): `{"service": "svc"}` yields `/svc/*` and
`{"service": "svc", "method": "Get"}` yields `/svc/Get`. -/
theorem c5_witness :
    parse_json_method_name (.obj none [.str (some "service") "svc"]) =
      some "/svc/*" ∧
    parse_json_method_name
        (.obj none [.str (some "service") "svc",
                    .str (some "method") "Get"]) = some "/svc/Get" := by
  constructor
  · exact (c5_path_synthesis none [.str (some "service") "svc"] "svc" none
      rfl).trans rfl
  · exact (c5_path_synthesis none
      [.str (some "service") "svc", .str (some "method") "Get"] "svc"
      (some "Get") rfl).trans rfl

/-- The wildcard derivation succeeds exactly on paths that contain a
slash (`strrchr` returns non-`NULL` iff the character occurs). -/
lemma upToLastSlash_isSome_iff (path : List Char) :
    (upToLastSlash path).isSome ↔ '/' ∈ path := by
  induction path with
  | nil => simp [upToLastSlash]
  | cons c rest ih =>
    simp only [upToLastSlash, List.mem_cons]
    cases hu : upToLastSlash rest with
    | some p =>
      have : '/' ∈ rest := ih.mp (by rw [hu]; rfl)
      simp [this]
    | none =>
      have hm : '/' ∉ rest := fun hmem => by
        have hsome := ih.mpr hmem
        rw [hu] at hsome
        exact absurd hsome (by simp)
      by_cases hc : c = '/'
      · simp [hc]
      · simp [hc, hm, eq_comm]

/-- Claim C6: for every table and every path containing a `'/'`, the
lookup returns the exact-match value when the path is a key; on an exact
miss it returns exactly the lookup of the wildcard path — the prefix of
the path through its last `'/'` with `'*'` appended — so when that lookup
also misses the result is "absent" (`some none`), with no further
fallback level. -/
theorem c6_lookup {V : Type} (table : List (List Char × V))
    (path : List Char) (h : '/' ∈ path) :
    (∀ v, tableGet table path = some v →
      grpc_method_config_table_get table path = some (some v)) ∧
    (tableGet table path = none →
      grpc_method_config_table_get table path =
        some (tableGet table ((upToLastSlash path).getD [] ++ ['*']))) := by
  constructor
  · intro v hv
    simp [grpc_method_config_table_get, hv]
  · intro hn
    obtain ⟨pre, hpre⟩ :=
      Option.isSome_iff_exists.mp ((upToLastSlash_isSome_iff path).mpr h)
    simp [grpc_method_config_table_get, hn, hpre]

/-- Claim C6 (witness): with a table holding the exact key `/s/G` and the
wildcard key `/s/*`, the exact path hits its entry, a different method
under the same service hits the wildcard, and a path under another
service resolves to "absent". -/
theorem c6_witness :
    grpc_method_config_table_get
        [(['/', 's', '/', 'G'], (1 : Nat)), (['/', 's', '/', '*'], 0)]
        ['/', 's', '/', 'G'] = some (some 1) ∧
    grpc_method_config_table_get
        [(['/', 's', '/', 'G'], (1 : Nat)), (['/', 's', '/', '*'], 0)]
        ['/', 's', '/', 'm'] = some (some 0) ∧
    grpc_method_config_table_get
        [(['/', 's', '/', 'G'], (1 : Nat)), (['/', 's', '/', '*'], 0)]
        ['/', 'o', '/', 'm'] = some none := by
  refine ⟨?_, ?_, ?_⟩
  · exact (c6_lookup
      [(['/', 's', '/', 'G'], (1 : Nat)), (['/', 's', '/', '*'], 0)]
      ['/', 's', '/', 'G'] (by decide)).1 1 rfl
  · exact ((c6_lookup
      [(['/', 's', '/', 'G'], (1 : Nat)), (['/', 's', '/', '*'], 0)]
      ['/', 's', '/', 'm'] (by decide)).2 rfl).trans rfl
  · exact ((c6_lookup
      [(['/', 's', '/', 'G'], (1 : Nat)), (['/', 's', '/', '*'], 0)]
      ['/', 'o', '/', 'm'] (by decide)).2 rfl).trans rfl

/-- Claim C9: on a path with no `'/'` that has no exact match in the
table, the lookup's wildcard derivation dereferences
`strrchr(path, '/') + 1` with `strrchr` returning `NULL`: the guarded
embedding's undefined-behavior branch (`none`) is reached. -/
theorem c9_no_slash_undefined {V : Type} (table : List (List Char × V))
    (path : List Char) (h1 : '/' ∉ path)
    (h2 : tableGet table path = none) :
    grpc_method_config_table_get table path = none := by
  have hu : upToLastSlash path = none := by
    cases hu' : upToLastSlash path with
    | none => rfl
    | some p =>
      exact absurd ((upToLastSlash_isSome_iff path).mp (by rw [hu']; rfl)) h1
  simp [grpc_method_config_table_get, h2, hu]

/-- Claim C9 (witness): the empty table and the slash-free path `abc`
reach the undefined branch. -/
theorem c9_witness :
    grpc_method_config_table_get ([] : List (List Char × Nat))
        ['a', 'b', 'c'] = none :=
  c9_no_slash_undefined [] ['a', 'b', 'c'] (by decide) rfl

/- Auxiliary facts for the keyless-field-skipping behavior of the
compilation pass (claim C10). -/

/-- The pre-pass name count ignores keyless fields (`field->key != NULL`
is part of its test). -/
lemma countNames_skip_keyless (g : Json) (hg : g.key = none)
    (l₁ l₂ : List Json) :
    countNames (l₁ ++ g :: l₂) = countNames (l₁ ++ l₂) := by
  induction l₁ with
  | nil => simp [countNames, hg]
  | cons fld tl ih => simp [countNames, ih]

/-- The path-collecting loop ignores keyless fields (`continue`). -/
lemma collectPaths_skip_keyless (g : Json) (hg : g.key = none)
    (l₂ : List Json) :
    ∀ (l₁ : List Json) (acc : List (Option String)),
      collectPaths (l₁ ++ g :: l₂) acc = collectPaths (l₁ ++ l₂) acc := by
  intro l₁
  induction l₁ with
  | nil =>
    intro acc
    simp only [List.nil_append, collectPaths, hg]
  | cons fld tl ih =>
    intro acc
    simp only [List.cons_append, collectPaths]
    cases hk : fld.key with
    | none => exact ih acc
    | some k =>
      by_cases hn : k = "name"
      · cases he : fld.arrElems with
        | none => simp [hn, he]
        | some elems => simp [hn, he, ih]
      · simp [hn, ih]

/-- Parsing a method-config entry gives the same verdict, staged entries and
trace on an entry with an extra keyless field, provided the factory does
(the factory is handed the whole entry node). -/
lemma parse_json_method_config_skip_keyless {V : Type} (f : Json → Option V)
    (k : Option String) (g : Json) (hg : g.key = none) (l₁ l₂ : List Json)
    (hf : f (.obj k (l₁ ++ g :: l₂)) = f (.obj k (l₁ ++ l₂)))
    (st : StageState V) :
    parse_json_method_config f (.obj k (l₁ ++ g :: l₂)) st =
      parse_json_method_config f (.obj k (l₁ ++ l₂)) st := by
  simp only [parse_json_method_config, Json.children, hf,
    collectPaths_skip_keyless g hg l₂ l₁]

/-- The per-method compilation loop is a congruence in one entry: if two
entries parse identically from every staging state, swapping one for the
other changes nothing. -/
lemma compileMethods_congr {V : Type} (f : Json → Option V) (e e' : Json)
    (hpe : ∀ st, parse_json_method_config f e' st =
      parse_json_method_config f e st) (ms₂ : List Json) :
    ∀ (ms₁ : List Json) (st : StageState V),
      compileMethods f (ms₁ ++ e' :: ms₂) st =
        compileMethods f (ms₁ ++ e :: ms₂) st := by
  intro ms₁
  induction ms₁ with
  | nil =>
    intro st
    simp only [List.nil_append, compileMethods, hpe st]
  | cons m tl ih =>
    intro st
    simp only [List.cons_append, compileMethods]
    cases hp : parse_json_method_config f m st with
    | none => rfl
    | some p =>
      obtain ⟨b, st'⟩ := p
      cases b with
      | false => rfl
      | true => exact ih st'

/-- Claim C10: inside a method-config entry the compilation pass silently
skips a keyless field: for any document position of the entry and any
factory that does not itself distinguish the two entry nodes, adding a
keyless field to the entry leaves the whole result of
`grpc_service_config_create_method_config_table` (verdict, table and
resource trace) unchanged. -/
theorem c10_keyless_entry_field_skipped {V : Type} (f : Json → Option V)
    (ms₁ ms₂ : List Json) (k : Option String) (l₁ l₂ : List Json) (g : Json)
    (hg : g.key = none)
    (hf : f (.obj k (l₁ ++ g :: l₂)) = f (.obj k (l₁ ++ l₂))) :
    grpc_service_config_create_method_config_table f
        (.obj none [.arr (some "methodConfig")
          (ms₁ ++ .obj k (l₁ ++ g :: l₂) :: ms₂)]) =
      grpc_service_config_create_method_config_table f
        (.obj none [.arr (some "methodConfig")
          (ms₁ ++ .obj k (l₁ ++ l₂) :: ms₂)]) := by
  have hcount : count_names_in_method_config_json (.obj k (l₁ ++ g :: l₂)) =
      count_names_in_method_config_json (.obj k (l₁ ++ l₂)) := by
    simp only [count_names_in_method_config_json, Json.children]
    exact countNames_skip_keyless g hg l₁ l₂
  have hsum :
      (List.map count_names_in_method_config_json
        (ms₁ ++ .obj k (l₁ ++ g :: l₂) :: ms₂)).sum =
      (List.map count_names_in_method_config_json
        (ms₁ ++ .obj k (l₁ ++ l₂) :: ms₂)).sum := by
    simp [List.map_append, List.sum_append, hcount]
  have hpe : ∀ st : StageState V,
      parse_json_method_config f (.obj k (l₁ ++ g :: l₂)) st =
        parse_json_method_config f (.obj k (l₁ ++ l₂)) st :=
    parse_json_method_config_skip_keyless f k g hg l₁ l₂ hf
  have reduce : ∀ ms : List Json,
      grpc_service_config_create_method_config_table f
          (.obj none [.arr (some "methodConfig") ms]) =
        match compileMethods f ms
            ⟨[], (ms.map count_names_in_method_config_json).sum, trace0⟩ with
        | none => (CompileResult.crash, trace0)
        | some (false, st') => (CompileResult.null, st'.tr)
        | some (true, st') =>
          if st'.staged.length = (ms.map count_names_in_method_config_json).sum
          then (CompileResult.table st'.staged,
                { st'.tr with
                    copyDestroys := st'.tr.copyDestroys + st'.staged.length,
                    keysReleased := st'.tr.keysReleased + st'.staged.length })
          else (CompileResult.crash, st'.tr) :=
    fun ms => rfl
  rw [reduce, reduce, hsum,
    compileMethods_congr f (.obj k (l₁ ++ l₂)) (.obj k (l₁ ++ g :: l₂)) hpe
      ms₂ ms₁]

/-- Claim C10 (witness): the theorem at a concrete entry, factory and
keyless extra field (both documents compile to the same one-entry table
and trace). -/
theorem c10_witness :
    grpc_service_config_create_method_config_table unitFactory
        (.obj none [.arr (some "methodConfig")
          [.obj none [.arr (some "name") [.obj none [.str (some "service") "s"]],
                      .str none "junk"]]]) =
      grpc_service_config_create_method_config_table unitFactory
        (.obj none [.arr (some "methodConfig")
          [.obj none [.arr (some "name")
            [.obj none [.str (some "service") "s"]]]]]) :=
  c10_keyless_entry_field_skipped unitFactory [] [] none
    [.arr (some "name") [.obj none [.str (some "service") "s"]]] []
    (.str none "junk") rfl rfl

end ServiceConfig
